import Mathlib

/-
Verification of `comps/retrievers/neo4j/llama_index/retriever_community_answers_neo4j.py`.

The Python module composes: entity extraction (a regular-expression scan over
retrieved node texts), a per-entity Cypher fetch of community summaries into a
dict, batched LLM answering over those summaries, and a service handler.
External collaborators (the property-graph retriever, the Neo4j driver, the two
LLM clients) are modelled as opaque functions gathered in an `Env`; the Python
code of this module is translated definition by definition below.
-/

set_option autoImplicit false

namespace RetrieverNeo4j

/-! ### Character classes

Python `\w` (ASCII fragment) and `\s`, as used by the triplet regex
`(\w+(?:\s+\w+)*)\s*->\s*(\w+(?:\s+\w+)*)\s*->\s*(\w+(?:\s+\w+)*)`
and by `str.strip()`. -/

def isWordChar (c : Char) : Bool :=
  c.isAlphanum || c == '_'

def isPySpace (c : Char) : Bool :=
  c == ' ' || c == '\t' || c == '\n' || c == '\r' || c == Char.ofNat 11 || c == Char.ofNat 12

/-! ### The triplet regular expression

The pattern's word segments `\w+(?:\s+\w+)*` can never contain `-` or `>`
(neither is a word or space character), so greedy matching without
backtracking coincides with Python's leftmost, non-overlapping `re.findall`
semantics for this pattern.  `re.DOTALL` is immaterial: the pattern has no `.`. -/

/-- One maximal `\w+` run; fails when the first character is not a word character. -/
def wordRun (l : List Char) : Option (List Char × List Char) :=
  let w := l.takeWhile isWordChar
  if w = [] then none else some (w, l.dropWhile isWordChar)

/-- Greedy extension `(?:\s+\w+)*` of a word segment; the fuel bounds the
number of repetitions (each consumes at least one character). -/
def segExt : Nat → List Char → List Char → List Char × List Char
  | 0, acc, l => (acc, l)
  | fuel + 1, acc, l =>
    let sp := l.takeWhile isPySpace
    let rest := l.dropWhile isPySpace
    if sp = [] then (acc, l)
    else
      match wordRun rest with
      | none => (acc, l)
      | some (w, rest') => segExt fuel (acc ++ sp ++ w) rest'

/-- A full word segment `\w+(?:\s+\w+)*`. -/
def wordSegment (l : List Char) : Option (List Char × List Char) :=
  match wordRun l with
  | none => none
  | some (w, rest) =>
    let p := segExt rest.length w rest
    some p

/-- `\s*->`. -/
def matchArrow (l : List Char) : Option (List Char) :=
  match l.dropWhile isPySpace with
  | '-' :: '>' :: rest => some rest
  | _ => none

/-- Match the whole triplet pattern at the current position, returning the
three capture groups (subject, relation, object) and the rest of the input. -/
def matchTripletAt (l : List Char) : Option ((String × String × String) × List Char) := do
  let (w1, r1) ← wordSegment l
  let r2 ← matchArrow r1
  let (w2, r3) ← wordSegment (r2.dropWhile isPySpace)
  let r4 ← matchArrow r3
  let (w3, r5) ← wordSegment (r4.dropWhile isPySpace)
  some ((⟨w1⟩, ⟨w2⟩, ⟨w3⟩), r5)

/-- Left-to-right non-overlapping scan, as `re.findall`: on a match, continue
after it; otherwise advance one character.  Fuel: every step consumes at least
one character, so `l.length` suffices. -/
def findTriplets : Nat → List Char → List (String × String × String)
  | 0, _ => []
  | fuel + 1, l =>
    match matchTripletAt l with
    | some (m, rest) => m :: findTriplets fuel rest
    | none =>
      match l with
      | [] => []
      | _ :: rest => findTriplets fuel rest

/-- `re.findall(pattern, text, re.DOTALL)` for the triplet pattern. -/
def reFindallTriplets (s : String) : List (String × String × String) :=
  findTriplets s.data.length s.data

/-! ### External collaborators and engine state

`GraphRAGQueryEngine` holds a graph store, an index, an LLM client and a
similarity top-k.  The retrieval call, the Neo4j session queries and the chat
calls of the two possible LLM clients are opaque to this module and are
modelled as functions of an environment. -/

/-- A `llama_index` `ChatMessage`. -/
structure ChatMessage where
  role : String
  content : String
deriving DecidableEq, Repr

/-- Opaque external collaborators.

* `retrieveF q k`: the node texts returned by
  `self._index.as_retriever(similarity_top_k=k).retrieve(q)`.
* `dbF e`: the `(cluster_id, summary)` records returned, in result order, by
  the Cypher query `MATCH (e:Entity {id: $entity_id})-[:BELONGS_TO]->(c:Cluster)`
  for `$entity_id = e`.
* `openaiKeySet`: whether the `OPENAI_API_KEY` configuration value is truthy.
* `openaiChat msgs`: `str(OpenAI().chat(msgs))`. -/
structure Env where
  retrieveF : String → Nat → List String
  dbF : String → List (Nat × String)
  openaiKeySet : Bool
  openaiChat : List ChatMessage → String

/-- The engine's private attributes that matter to the claims:
`_llm.chat` as a function and `_similarity_top_k`. -/
structure Engine where
  llmChat : List ChatMessage → String
  similarity_top_k : Nat

/-- A `RetrievalResponseData(text=..., metadata={})` record; the metadata dict
is modelled as an association list. -/
structure RetrievalResponseData where
  text : String
  metadata : List (String × String)
deriving DecidableEq, Repr

/-! ### Python dict as an association list (insertion order preserved) -/

/-- Python `d[k] = v`: update the value in place when the key is present,
otherwise append the new pair at the end. -/
def dictInsert : List (Nat × String) → Nat → String → List (Nat × String)
  | [], k, v => [(k, v)]
  | p :: rest, k, v =>
    if p.1 = k then (k, v) :: rest else p :: dictInsert rest k v

/-- Python `d[k]` (as an option; in the translated code every lookup hits). -/
def lookupDict : List (Nat × String) → Nat → Option String
  | [], _ => none
  | p :: rest, k => if p.1 = k then some p.2 else lookupDict rest k

/-- Python `set.add` on a set modelled as a duplicate-free list. -/
def setAdd (l : List String) (x : String) : List String :=
  if x ∈ l then l else l ++ [x]

/-! ### `GraphRAGQueryEngine.get_entities` -/

/-- `get_entities(self, query_str, similarity_top_k)`: retrieve nodes with the
engine's `_similarity_top_k` (the `similarity_top_k` parameter is not used by
the retrieval call in the body), `re.findall` the triplet pattern over each
node text, and collect the subject (`match[0]`) and object (`match[2]`) of each
match into a set, returned as a list. -/
def getEntities (env : Env) (eng : Engine) (query_str : String)
    (similarity_top_k : Nat) : List String :=
  let nodes_retrieved := env.retrieveF query_str eng.similarity_top_k
  nodes_retrieved.foldl
    (fun entities node =>
      (reFindallTriplets node).foldl
        (fun es m => setAdd (setAdd es m.1) m.2.2) entities)
    []

/-! ### `GraphRAGQueryEngine.retrieve_community_summaries_cypher` -/

/-- One session; one Cypher query per entity, in order; each returned record
does `community_summaries[record["cluster_id"]] = record["summary"]`. -/
def retrieveCommunitySummariesCypher (env : Env) (entities : List String) :
    List (Nat × String) :=
  entities.foldl
    (fun community_summaries entity =>
      (env.dbF entity).foldl
        (fun cs record => dictInsert cs record.1 record.2)
        community_summaries)
    []

/-- The community-summary mapping `custom_query` builds for a query. -/
def communitySummariesOf (env : Env) (eng : Engine) (query_str : String) :
    List (Nat × String) :=
  retrieveCommunitySummariesCypher env (getEntities env eng query_str eng.similarity_top_k)

/-! ### Batching: `for i in range(0, len(community_ids), batch_size)` with
slices `community_ids[i : i + batch_size]`.  (`batch_size = 0` raises in
Python; the claims assume a positive batch size, and the `0` case of this
total model is never used by the theorems.) -/

def chunksOf {α : Type} : Nat → List α → List (List α)
  | _, [] => []
  | 0, _ :: _ => []
  | b + 1, x :: xs => (x :: xs.take b) :: chunksOf (b + 1) (xs.drop b)
termination_by _ l => l.length
decreasing_by
  simp only [List.length_drop, List.length_cons]
  omega

/-- `batch_summaries = {cid: community_summaries[cid] for cid in batch_ids}`. -/
def batchSummariesFor (community_summaries : List (Nat × String))
    (batch_ids : List Nat) : List (Nat × String) :=
  batch_ids.filterMap fun cid =>
    (lookupDict community_summaries cid).map fun s => (cid, s)

/-! ### Prompt construction and `generate_batch_responses` -/

/-- The two chat messages built for one community summary and the query. -/
def makeMessages (summary query : String) : List ChatMessage :=
  [{ role := "system",
     content := "Given the community summary: " ++ summary ++
       ", how would you answer the following query? Query: " ++ query },
   { role := "user",
     content := "I need an answer based on the above information." }]

/-- `re.sub(r"^assistant:\s*", "", s)`: drop a leading `assistant:` tag and the
whitespace after it. -/
def subAssistantTag (l : List Char) : List Char :=
  if l.take 10 = "assistant:".data then (l.drop 10).dropWhile isPySpace else l

/-- Python `str.strip()`. -/
def pyStrip (l : List Char) : List Char :=
  ((l.dropWhile isPySpace).reverse.dropWhile isPySpace).reverse

/-- `re.sub(r"^assistant:\s*", "", str(response)).strip()`. -/
def cleanResponse (s : String) : String :=
  ⟨pyStrip (subAssistantTag s.data)⟩

/-- The raw chat calls of `generate_batch_responses`: one call per message
list, all through `OpenAI()` when `OPENAI_API_KEY` is set, otherwise all
through `self._llm`. -/
def batchResponsesRaw (env : Env) (eng : Engine)
    (messages : List (List ChatMessage)) : List String :=
  if env.openaiKeySet then messages.map env.openaiChat
  else messages.map eng.llmChat

/-- `generate_batch_responses(self, batch_prompts)`: issue the calls, clean
each response into a dict keyed by community id, then read the dict back in
`batch_prompts` order. -/
def generateBatchResponses (env : Env) (eng : Engine)
    (batch_prompts : List (Nat × List ChatMessage)) : List String :=
  let messages := batch_prompts.map Prod.snd
  let batch_responses := batchResponsesRaw env eng messages
  let responses :=
    (batch_prompts.zip batch_responses).foldl
      (fun d pr => dictInsert d pr.1.1 (cleanResponse pr.2)) []
  batch_prompts.filterMap fun p => lookupDict responses p.1

/-- `generate_batch_answers_from_summaries(self, batch_summaries, query)`. -/
def generateBatchAnswersFromSummaries (env : Env) (eng : Engine)
    (batch_summaries : List (Nat × String)) (query : String) : List String :=
  let batch_prompts :=
    batch_summaries.map fun p => (p.1, makeMessages p.2 query)
  generateBatchResponses env eng batch_prompts

/-! ### `GraphRAGQueryEngine.custom_query` -/

/-- `custom_query(self, query_str, batch_size=16)`. -/
def customQuery (env : Env) (eng : Engine) (query_str : String)
    (batch_size : Nat) : List RetrievalResponseData :=
  let entities := getEntities env eng query_str eng.similarity_top_k
  let community_summaries := retrieveCommunitySummariesCypher env entities
  let community_ids := community_summaries.map Prod.fst
  let community_answers :=
    (chunksOf batch_size community_ids).foldl
      (fun acc batch_ids =>
        acc ++ generateBatchAnswersFromSummaries env eng
          (batchSummariesFor community_summaries batch_ids) query_str)
      []
  community_answers.map fun answer => { text := answer, metadata := [] }

/-- The community ids for which `custom_query` builds prompts (hence issues
LLM calls), batch by batch, in order: an observation of the batch loop. -/
def promptedCommunityIds (env : Env) (eng : Engine) (query_str : String)
    (batch_size : Nat) : List Nat :=
  let community_summaries := communitySummariesOf env eng query_str
  (chunksOf batch_size (community_summaries.map Prod.fst)).foldl
    (fun acc batch_ids =>
      acc ++ (batchSummariesFor community_summaries batch_ids).map Prod.fst)
    []

/-! ### The service handler `retrieve`

`ChatCompletionRequest` lives outside this module; per the spec it is a
chat-completion-shaped request whose `messages` field is either a string or a
list of role/content message dicts. -/

/-- Modelled from the spec: the `messages` field of a `ChatCompletionRequest`
(`comps.cores.proto.api_protocol`, not part of this repository slice) — a
plain string or a list of role/content messages. -/
inductive MessagesField where
  | str (s : String)
  | list (msgs : List ChatMessage)
deriving DecidableEq, Repr

/-- The fields of the `ChatCompletionRequest` the handler builds as its
result: `messages`, `retrieved_docs`, `documents`. -/
structure HandlerResponse where
  messages : String
  retrieved_docs : List RetrievalResponseData
  documents : List String
deriving DecidableEq, Repr

/-- The body of `retrieve` from the extracted query onward:
`query_engine.query(query)` (which runs `custom_query` with the default
`batch_size=16`), then the response with the fixed confirmation string, the
retrieved docs, and their texts. -/
def handlerResult (env : Env) (eng : Engine) (query : String) : HandlerResponse :=
  let answers_by_community := customQuery env eng query 16
  { messages := "Retrieval of answers from community summaries successful",
    retrieved_docs := answers_by_community,
    documents := answers_by_community.map fun doc => doc.text }

/-- `retrieve(input)`: take `input.messages` itself when it is a string,
otherwise `input.messages[0]["content"]` (an empty message list raises
`IndexError` in Python, modelled as `none`), then `handlerResult`. -/
def retrieveHandler (env : Env) (eng : Engine) (input : MessagesField) :
    Option HandlerResponse :=
  match input with
  | .str s => some (handlerResult env eng s)
  | .list [] => none
  | .list (m :: _) => some (handlerResult env eng m.content)

/-! ### `initialize_graph_store_and_index`

The function first builds the LLM and embedding clients: when
`OPENAI_API_KEY` is set it tries the OpenAI clients inside a
`try/except` whose handlers only log; when the key is not set it builds the
`OpenAILike`/TEI clients unconditionally (no `try`).  It then runs
`Settings.embed_model = embed_model`, `Settings.llm = llm`, builds the graph
store, the index and the query engine, and sets `initialized = True`.  When
the OpenAI construction raised, `llm`/`embed_model` were never bound, so the
`Settings` assignment raises an uncaught `UnboundLocalError` and nothing
after it runs. -/

/-- Which pair of clients ends up configured. -/
inductive InitClients where
  | openaiClients
  | selfHostedClients
deriving DecidableEq, Repr

/-- Outcome of `initialize_graph_store_and_index`: either the graph store,
index and query engine were all constructed with the given clients (and
`initialized` was set), or the run died on the unbound `llm`/`embed_model`
locals after a caught-and-logged client-construction error. -/
inductive InitOutcome where
  | ready (clients : InitClients)
  | unboundLocalError
deriving DecidableEq, Repr

/-- Configuration of one initialization run.  `constructionError` is `none`
when the OpenAI client construction succeeds, `some true` when it raises
`openai.AuthenticationError`, and `some false` when it raises any other
exception (the two `except` arms differ only in the logged message; `emsg` is
the text of the generic exception). -/
structure InitConfig where
  openai_api_key : Bool
  constructionError : Option Bool
  emsg : String
deriving DecidableEq, Repr

/-- `initialize_graph_store_and_index()`, returning the log lines emitted up
to the client-construction phase together with the outcome. -/
def initGraphStoreAndIndex (cfg : InitConfig) : List String × InitOutcome :=
  if cfg.openai_api_key then
    match cfg.constructionError with
    | none =>
      (["OpenAI API Key is set. Verifying its validity...",
        "OpenAI API Key is valid."],
       .ready .openaiClients)
    | some true =>
      (["OpenAI API Key is set. Verifying its validity...",
        "OpenAI API Key is invalid."],
       .unboundLocalError)
    | some false =>
      (["OpenAI API Key is set. Verifying its validity...",
        "An error occurred while verifying the API Key: " ++ cfg.emsg],
       .unboundLocalError)
  else
    (["No OpenAI API KEY provided. Will use TGI/VLLM and TEI endpoints"],
     .ready .selfHostedClients)

/-! ### Specification-side definitions used by the theorems -/

/-- The chat client `generate_batch_responses` routes every call of a batch
through: `OpenAI()` when the key is configured, else the engine's `_llm`. -/
def selectedChat (env : Env) (eng : Engine) : List ChatMessage → String :=
  if env.openaiKeySet then env.openaiChat else eng.llmChat

/-- The answer `custom_query` produces for one `(community_id, summary)`
entry: the cleaned response of the selected client on that entry's prompt. -/
def answerFor (env : Env) (eng : Engine) (query : String) (p : Nat × String) :
    String :=
  cleanResponse (selectedChat env eng (makeMessages p.2 query))

/-- The community ids `custom_query` processes for a query. -/
def communityIdsProcessed (env : Env) (eng : Engine) (query_str : String) :
    List Nat :=
  (communitySummariesOf env eng query_str).map Prod.fst

/-! ### Concrete fixtures for the witnesses -/

def envA : Env :=
  { retrieveF := fun _ _ => ["Paris -> capitalOf -> France"],
    dbF := fun e =>
      if e = "Paris" then [(1, "s1"), (2, "s2")]
      else if e = "France" then [(2, "s2"), (3, "s3")]
      else [],
    openaiKeySet := false,
    openaiChat := fun _ => "assistant: openai answer" }

def envAOtherChat : Env :=
  { envA with openaiChat := fun _ => "assistant: other" }

def envK : Env :=
  { envA with openaiKeySet := true }

def envEmpty : Env :=
  { envA with retrieveF := fun _ _ => ["no arrows here"] }

def engA : Engine :=
  { llmChat := fun _ => "assistant: answer", similarity_top_k := 3 }

def engB : Engine :=
  { llmChat := fun _ => "assistant: different", similarity_top_k := 3 }

def msgsW : List (List ChatMessage) :=
  [makeMessages "s1" "q"]

/-! ## Lemma layer

General facts about the dict model, the chunking of the batch loop, and list
plumbing, used by the claim theorems. -/

theorem lookupDict_dictInsert_self (d : List (Nat × String)) (k : Nat) (v : String) :
    lookupDict (dictInsert d k v) k = some v := by
  induction d with
  | nil => simp [dictInsert, lookupDict]
  | cons p rest ih =>
    by_cases h : p.1 = k
    · simp [dictInsert, h, lookupDict]
    · simp [dictInsert, h, lookupDict, ih]

theorem lookupDict_dictInsert_ne (d : List (Nat × String)) (k k' : Nat) (v : String)
    (h : k' ≠ k) : lookupDict (dictInsert d k' v) k = lookupDict d k := by
  induction d with
  | nil => simp [dictInsert, lookupDict, h]
  | cons p rest ih =>
    by_cases hp : p.1 = k'
    · simp [dictInsert, hp, lookupDict, h]
    · simp only [dictInsert, hp, if_false, lookupDict]
      by_cases hpk : p.1 = k <;> simp [hpk, ih]

theorem keys_dictInsert (d : List (Nat × String)) (k : Nat) (v : String) :
    (dictInsert d k v).map Prod.fst =
      if k ∈ d.map Prod.fst then d.map Prod.fst else d.map Prod.fst ++ [k] := by
  induction d with
  | nil => simp [dictInsert]
  | cons p rest ih =>
    by_cases h : p.1 = k
    · simp [dictInsert, h]
    · simp only [dictInsert, h, if_false, List.map_cons, ih]
      have : (k ∈ p.1 :: rest.map Prod.fst) ↔ (k ∈ rest.map Prod.fst) := by
        simp [List.mem_cons, Ne.symm h]
      by_cases hm : k ∈ rest.map Prod.fst <;> simp [hm, this]

theorem nodup_keys_dictInsert (d : List (Nat × String)) (k : Nat) (v : String)
    (h : (d.map Prod.fst).Nodup) : ((dictInsert d k v).map Prod.fst).Nodup := by
  rw [keys_dictInsert]
  by_cases hm : k ∈ d.map Prod.fst
  · simpa [hm] using h
  · simp only [hm, if_false]
    simp [List.nodup_append, h, hm]

theorem nodup_keys_foldl_dictInsert (recs : List (Nat × String)) :
    ∀ (d : List (Nat × String)), (d.map Prod.fst).Nodup →
      ((recs.foldl (fun cs r => dictInsert cs r.1 r.2) d).map Prod.fst).Nodup := by
  induction recs with
  | nil => intro d h; simpa using h
  | cons r rest ih =>
    intro d h
    exact ih (dictInsert d r.1 r.2) (nodup_keys_dictInsert d r.1 r.2 h)

/-- The fetched community-summary mapping has duplicate-free keys. -/
theorem nodup_keys_retrieveCommunitySummaries (env : Env) (entities : List String) :
    ((retrieveCommunitySummariesCypher env entities).map Prod.fst).Nodup := by
  unfold retrieveCommunitySummariesCypher
  suffices h : ∀ (l : List String) (d : List (Nat × String)), (d.map Prod.fst).Nodup →
      ((l.foldl
          (fun cs e => (env.dbF e).foldl (fun cs r => dictInsert cs r.1 r.2) cs)
          d).map Prod.fst).Nodup by
    exact h entities [] (by simp)
  intro l
  induction l with
  | nil => intro d h; simpa using h
  | cons e rest ih =>
    intro d h
    exact ih _ (nodup_keys_foldl_dictInsert (env.dbF e) d h)

theorem lookupDict_of_mem_nodup :
    ∀ (d : List (Nat × String)) (k : Nat) (v : String),
      (k, v) ∈ d → (d.map Prod.fst).Nodup → lookupDict d k = some v := by
  intro d
  induction d with
  | nil => intro k v hm; simp at hm
  | cons p rest ih =>
    intro k v hm hnd
    rw [List.map_cons] at hnd
    have hnd' := List.nodup_cons.mp hnd
    rcases List.mem_cons.mp hm with h | h
    · subst h; simp [lookupDict]
    · have hk : k ∈ rest.map Prod.fst :=
        List.mem_map.mpr ⟨(k, v), h, rfl⟩
      have hp1 : p.1 ≠ k := fun he => hnd'.1 (he ▸ hk)
      simp only [lookupDict, hp1, if_false]
      exact ih k v h hnd'.2

theorem lookupDict_foldl_keyval_ne {β : Type} (key : β → Nat) (val : β → String) :
    ∀ (l : List β) (d : List (Nat × String)) (k : Nat),
      (∀ b ∈ l, key b ≠ k) →
      lookupDict (l.foldl (fun d b => dictInsert d (key b) (val b)) d) k = lookupDict d k := by
  intro l
  induction l with
  | nil => intro d k _; rfl
  | cons b rest ih =>
    intro d k h
    have hb : key b ≠ k := h b (List.mem_cons_self b rest)
    rw [List.foldl_cons, ih _ k (fun b' hb' => h b' (List.mem_cons_of_mem b hb')),
      lookupDict_dictInsert_ne _ _ _ _ hb]

theorem lookupDict_foldl_keyval_of_mem {β : Type} (key : β → Nat) (val : β → String) :
    ∀ (l : List β) (d : List (Nat × String)) (b : β),
      b ∈ l → (l.map key).Nodup →
      lookupDict (l.foldl (fun d b => dictInsert d (key b) (val b)) d) (key b) =
        some (val b) := by
  intro l
  induction l with
  | nil => intro d b hm; simp at hm
  | cons q rest ih =>
    intro d b hm hnd
    rw [List.map_cons] at hnd
    have hnd' := List.nodup_cons.mp hnd
    rcases List.mem_cons.mp hm with h | h
    · subst h
      rw [List.foldl_cons,
        lookupDict_foldl_keyval_ne key val rest _ (key b)
          (fun b' hb' => fun he => hnd'.1 (he ▸ List.mem_map.mpr ⟨b', hb', rfl⟩)),
        lookupDict_dictInsert_self]
    · exact ih _ b h hnd'.2

theorem filterMap_eq_map_of_forall {α β : Type} :
    ∀ (l : List α) (f : α → Option β) (g : α → β),
      (∀ a ∈ l, f a = some (g a)) → l.filterMap f = l.map g := by
  intro l
  induction l with
  | nil => intro f g _; rfl
  | cons a rest ih =>
    intro f g h
    rw [List.filterMap_cons, h a (List.mem_cons_self a rest), List.map_cons,
      ih f g (fun a' ha' => h a' (List.mem_cons_of_mem a ha'))]

theorem zip_map_self {α β : Type} (f : α → β) :
    ∀ (l : List α), l.zip (l.map f) = l.map fun a => (a, f a) := by
  intro l
  induction l with
  | nil => rfl
  | cons a rest ih => simp [ih]

theorem foldl_append_flatten {α β : Type} (f : β → List α) :
    ∀ (l : List β) (acc : List α),
      l.foldl (fun a c => a ++ f c) acc = acc ++ (l.map f).flatten := by
  intro l
  induction l with
  | nil => intro acc; simp
  | cons c rest ih => intro acc; simp [ih, List.append_assoc]

theorem map_congr_mem {α β : Type} :
    ∀ (l : List α) (f g : α → β), (∀ a ∈ l, f a = g a) → l.map f = l.map g := by
  intro l
  induction l with
  | nil => intro f g _; rfl
  | cons a rest ih =>
    intro f g h
    rw [List.map_cons, List.map_cons, h a (List.mem_cons_self a rest),
      ih f g (fun a' ha' => h a' (List.mem_cons_of_mem a ha'))]

theorem chunksOf_nil {α : Type} (B : Nat) : chunksOf B ([] : List α) = [] := by
  rw [chunksOf]

theorem chunksOf_cons {α : Type} (b : Nat) (x : α) (xs : List α) :
    chunksOf (b + 1) (x :: xs) = (x :: xs.take b) :: chunksOf (b + 1) (xs.drop b) := by
  rw [chunksOf]

theorem chunksOf_flatten {α : Type} (b : Nat) (l : List α) :
    (chunksOf (b + 1) l).flatten = l := by
  have H : ∀ (n : Nat) (l : List α), l.length ≤ n →
      (chunksOf (b + 1) l).flatten = l := by
    intro n
    induction n with
    | zero =>
      intro l hl
      have hnil : l = [] := List.eq_nil_of_length_eq_zero (Nat.le_zero.mp hl)
      subst hnil
      rw [chunksOf_nil]
      rfl
    | succ n ih =>
      intro l hl
      cases l with
      | nil => rw [chunksOf_nil]; rfl
      | cons x xs =>
        rw [chunksOf_cons, List.flatten_cons,
          ih (xs.drop b) (by simp only [List.length_drop]; simp at hl; omega)]
        simp [List.take_append_drop]
  exact H l.length l (Nat.le_refl _)

theorem chunksOf_map {α β : Type} (b : Nat) (f : α → β) (l : List α) :
    chunksOf (b + 1) (l.map f) = (chunksOf (b + 1) l).map (List.map f) := by
  have H : ∀ (n : Nat) (l : List α), l.length ≤ n →
      chunksOf (b + 1) (l.map f) = (chunksOf (b + 1) l).map (List.map f) := by
    intro n
    induction n with
    | zero =>
      intro l hl
      have hnil : l = [] := List.eq_nil_of_length_eq_zero (Nat.le_zero.mp hl)
      subst hnil
      rw [List.map_nil, chunksOf_nil, chunksOf_nil]
      rfl
    | succ n ih =>
      intro l hl
      cases l with
      | nil => rw [List.map_nil, chunksOf_nil, chunksOf_nil]; rfl
      | cons x xs =>
        rw [List.map_cons, chunksOf_cons, chunksOf_cons, List.map_cons,
          ← List.map_take, ← List.map_drop,
          ih (xs.drop b) (by simp only [List.length_drop]; simp at hl; omega)]
        simp
  exact H l.length l (Nat.le_refl _)

theorem sublist_of_mem_chunksOf {α : Type} (b : Nat) (l c : List α)
    (hc : c ∈ chunksOf (b + 1) l) : c.Sublist l := by
  have H : ∀ (n : Nat) (l c : List α), l.length ≤ n →
      c ∈ chunksOf (b + 1) l → c.Sublist l := by
    intro n
    induction n with
    | zero =>
      intro l c hl hc
      have hnil : l = [] := List.eq_nil_of_length_eq_zero (Nat.le_zero.mp hl)
      subst hnil
      rw [chunksOf_nil] at hc
      simp at hc
    | succ n ih =>
      intro l c hl hc
      cases l with
      | nil => rw [chunksOf_nil] at hc; simp at hc
      | cons x xs =>
        rw [chunksOf_cons] at hc
        rcases List.mem_cons.mp hc with h | h
        · subst h
          exact List.Sublist.cons₂ x (List.take_sublist b xs)
        · have h1 : c.Sublist (xs.drop b) :=
            ih (xs.drop b) c (by simp only [List.length_drop]; simp at hl; omega) h
          exact (h1.trans (List.drop_sublist b xs)).trans (List.sublist_cons_self x xs)
  exact H l.length l c (Nat.le_refl _) hc

theorem length_chunksOf {α : Type} (b : Nat) (l : List α) :
    (chunksOf (b + 1) l).length = (l.length + b) / (b + 1) := by
  have key : ∀ m : Nat, (m - b + b) / (b + 1) = m / (b + 1) := by
    intro m
    rcases Nat.le_total b m with h | h
    · rw [Nat.sub_add_cancel h]
    · rw [Nat.sub_eq_zero_of_le h, Nat.zero_add,
        Nat.div_eq_of_lt (by omega), Nat.div_eq_of_lt (by omega)]
  have H : ∀ (n : Nat) (l : List α), l.length ≤ n →
      (chunksOf (b + 1) l).length = (l.length + b) / (b + 1) := by
    intro n
    induction n with
    | zero =>
      intro l hl
      have hnil : l = [] := List.eq_nil_of_length_eq_zero (Nat.le_zero.mp hl)
      subst hnil
      rw [chunksOf_nil]
      simp [Nat.div_eq_of_lt (by omega : b < b + 1)]
    | succ n ih =>
      intro l hl
      cases l with
      | nil =>
        rw [chunksOf_nil]
        simp [Nat.div_eq_of_lt (by omega : b < b + 1)]
      | cons x xs =>
        rw [chunksOf_cons, List.length_cons,
          ih (xs.drop b) (by simp only [List.length_drop]; simp at hl; omega),
          List.length_drop, key xs.length, List.length_cons,
          show xs.length + 1 + b = xs.length + (b + 1) by omega,
          Nat.add_div_right _ (by omega)]
  exact H l.length l (Nat.le_refl _)

theorem batchResponsesRaw_eq_selected (env : Env) (eng : Engine)
    (messages : List (List ChatMessage)) :
    batchResponsesRaw env eng messages = messages.map (selectedChat env eng) := by
  unfold batchResponsesRaw selectedChat
  by_cases h : env.openaiKeySet <;> simp [h]

/-- With duplicate-free community ids, the dict round-trip of
`generate_batch_responses` is the in-order map of the cleaned responses. -/
theorem generateBatchResponses_eq (env : Env) (eng : Engine)
    (prompts : List (Nat × List ChatMessage))
    (h : (prompts.map Prod.fst).Nodup) :
    generateBatchResponses env eng prompts =
      prompts.map fun p => cleanResponse (selectedChat env eng p.2) := by
  simp only [generateBatchResponses]
  rw [batchResponsesRaw_eq_selected, List.map_map,
    zip_map_self (selectedChat env eng ∘ Prod.snd) prompts, List.foldl_map]
  apply filterMap_eq_map_of_forall
  intro p hp
  exact lookupDict_foldl_keyval_of_mem Prod.fst
    (fun p => cleanResponse (selectedChat env eng p.2)) prompts [] p hp h

/-- With duplicate-free community ids, a batch's answers are the in-order
answers for its `(community_id, summary)` entries. -/
theorem generateBatchAnswers_eq (env : Env) (eng : Engine)
    (batch_summaries : List (Nat × String)) (query : String)
    (h : (batch_summaries.map Prod.fst).Nodup) :
    generateBatchAnswersFromSummaries env eng batch_summaries query =
      batch_summaries.map (answerFor env eng query) := by
  unfold generateBatchAnswersFromSummaries
  rw [generateBatchResponses_eq, List.map_map]
  · rfl
  · rw [List.map_map]
    exact h

/-- Rebuilding a batch dict from the ids of a chunk of the mapping's entries
recovers exactly that chunk of entries. -/
theorem batchSummariesFor_map_fst (community_summaries : List (Nat × String))
    (hnd : (community_summaries.map Prod.fst).Nodup) :
    ∀ (ce : List (Nat × String)), (∀ p ∈ ce, p ∈ community_summaries) →
      batchSummariesFor community_summaries (ce.map Prod.fst) = ce := by
  intro ce
  induction ce with
  | nil => intro _; rfl
  | cons p rest ih =>
    intro hsub
    have hp : p ∈ community_summaries := hsub p (List.mem_cons_self p rest)
    have hlook : lookupDict community_summaries p.1 = some p.2 :=
      lookupDict_of_mem_nodup community_summaries p.1 p.2 hp hnd
    have hrest := ih (fun q hq => hsub q (List.mem_cons_of_mem p hq))
    simp only [batchSummariesFor, List.map_cons, List.filterMap_cons, hlook,
      Option.map_some']
    simp only [batchSummariesFor] at hrest
    rw [hrest]

/-- Full characterization of `custom_query` for a positive batch size: one
record per entry of the community-summary mapping, in mapping order, whose
text is that entry's cleaned LLM answer. -/
theorem customQuery_eq (env : Env) (eng : Engine) (q : String) (B : Nat)
    (hB : 0 < B) :
    customQuery env eng q B =
      ((communitySummariesOf env eng q).map (answerFor env eng q)).map
        (fun answer => { text := answer, metadata := [] }) := by
  obtain ⟨b, rfl⟩ : ∃ b, B = b + 1 := ⟨B - 1, by omega⟩
  simp only [customQuery, communitySummariesOf]
  have hnd := nodup_keys_retrieveCommunitySummaries env
    (getEntities env eng q eng.similarity_top_k)
  set S := retrieveCommunitySummariesCypher env
    (getEntities env eng q eng.similarity_top_k) with hSdef
  rw [foldl_append_flatten, List.nil_append, chunksOf_map b Prod.fst S,
    List.map_map]
  have hcongr :
      (chunksOf (b + 1) S).map
          ((fun batch_ids => generateBatchAnswersFromSummaries env eng
              (batchSummariesFor S batch_ids) q) ∘ List.map Prod.fst) =
        (chunksOf (b + 1) S).map (List.map (answerFor env eng q)) := by
    apply map_congr_mem
    intro ce hce
    have hsl := sublist_of_mem_chunksOf b S ce hce
    have hsub : ∀ p ∈ ce, p ∈ S := fun p hp => hsl.subset hp
    have hndce : (ce.map Prod.fst).Nodup := hnd.sublist (hsl.map Prod.fst)
    simp only [Function.comp]
    rw [batchSummariesFor_map_fst S hnd ce hsub,
      generateBatchAnswers_eq env eng ce q hndce]
  rw [hcongr, ← chunksOf_map b (answerFor env eng q) S, chunksOf_flatten]

/-- The prompted community ids are exactly the mapping's keys, in order. -/
theorem promptedCommunityIds_eq (env : Env) (eng : Engine) (q : String)
    (B : Nat) (hB : 0 < B) :
    promptedCommunityIds env eng q B =
      (communitySummariesOf env eng q).map Prod.fst := by
  obtain ⟨b, rfl⟩ : ∃ b, B = b + 1 := ⟨B - 1, by omega⟩
  simp only [promptedCommunityIds, communitySummariesOf]
  have hnd := nodup_keys_retrieveCommunitySummaries env
    (getEntities env eng q eng.similarity_top_k)
  set S := retrieveCommunitySummariesCypher env
    (getEntities env eng q eng.similarity_top_k) with hSdef
  rw [foldl_append_flatten, List.nil_append, chunksOf_map b Prod.fst S,
    List.map_map]
  have hcongr :
      (chunksOf (b + 1) S).map
          ((fun batch_ids => (batchSummariesFor S batch_ids).map Prod.fst) ∘
            List.map Prod.fst) =
        (chunksOf (b + 1) S).map (List.map Prod.fst) := by
    apply map_congr_mem
    intro ce hce
    have hsl := sublist_of_mem_chunksOf b S ce hce
    simp only [Function.comp]
    rw [batchSummariesFor_map_fst S hnd ce (fun p hp => hsl.subset hp)]
  rw [hcongr, ← chunksOf_map b Prod.fst S, chunksOf_flatten]

theorem dropWhile_idem {α : Type} (p : α → Bool) (l : List α) :
    (l.dropWhile p).dropWhile p = l.dropWhile p := by
  induction l with
  | nil => rfl
  | cons a rest ih =>
    by_cases h : p a
    · simp [List.dropWhile_cons, h, ih]
    · simp [List.dropWhile_cons, h]

theorem head_all_dropWhile {α : Type} (p : α → Bool) (l : List α) :
    ((l.dropWhile p).head?.all fun c => !p c) = true := by
  induction l with
  | nil => rfl
  | cons a rest ih =>
    by_cases h : p a <;> simp [List.dropWhile_cons, h, ih]

theorem exists_append_dropWhile {α : Type} (p : α → Bool) (l : List α) :
    ∃ t, t ++ l.dropWhile p = l := by
  induction l with
  | nil => exact ⟨[], rfl⟩
  | cons a rest ih =>
    by_cases h : p a
    · obtain ⟨t, ht⟩ := ih
      exact ⟨a :: t, by simp [List.dropWhile_cons, h, ht]⟩
    · exact ⟨[], by simp [List.dropWhile_cons, h]⟩

theorem pyStrip_dropWhile (l : List Char) :
    pyStrip (l.dropWhile isPySpace) = pyStrip l := by
  unfold pyStrip
  rw [dropWhile_idem]

/-- The stripped string has no leading whitespace character. -/
theorem head_all_pyStrip (l : List Char) :
    ((pyStrip l).head?.all fun c => !isPySpace c) = true := by
  unfold pyStrip
  obtain ⟨t, ht⟩ :=
    exists_append_dropWhile isPySpace (l.dropWhile isPySpace).reverse
  cases hr : ((l.dropWhile isPySpace).reverse.dropWhile isPySpace).reverse with
  | nil => simp [hr]
  | cons c t' =>
    have hm : l.dropWhile isPySpace = (c :: t') ++ t.reverse := by
      have h2 := congrArg List.reverse ht
      rw [List.reverse_append, List.reverse_reverse] at h2
      rw [← h2, hr]
    have hhead := head_all_dropWhile isPySpace l
    rw [hm] at hhead
    simpa [hr] using hhead

/-- The stripped string has no trailing whitespace character. -/
theorem getLast_all_pyStrip (l : List Char) :
    ((pyStrip l).getLast?.all fun c => !isPySpace c) = true := by
  unfold pyStrip
  rw [List.getLast?_reverse]
  exact head_all_dropWhile isPySpace _

/-- Cleaning a raw response of the shape `assistant:<rest>` strips exactly the
tag and then behaves as `str.strip()` on the rest. -/
theorem cleanResponse_assistant_cat (s : String) :
    cleanResponse ⟨"assistant:".data ++ s.data⟩ = ⟨pyStrip s.data⟩ := by
  unfold cleanResponse subAssistantTag
  have h10 : ("assistant:".data).length = 10 := rfl
  have hc : ("assistant:".data ++ s.data).take 10 = "assistant:".data := by
    rw [← h10]
    exact List.take_left _ _
  have hd : ("assistant:".data ++ s.data).drop 10 = s.data := by
    rw [← h10]
    exact List.drop_left _ _
  show (⟨pyStrip (if ("assistant:".data ++ s.data).take 10 = "assistant:".data
      then (("assistant:".data ++ s.data).drop 10).dropWhile isPySpace
      else "assistant:".data ++ s.data)⟩ : String) = ⟨pyStrip s.data⟩
  rw [if_pos hc, hd, pyStrip_dropWhile]

/-! ## Claim theorems -/

/-- Claim C1: for every community-summary mapping of size `N` and every
positive batch size `B`, `custom_query` partitions the community ids into
`⌈N/B⌉` consecutive batches (their concatenation is the id list, so the last
may be smaller) and returns exactly `N` answer texts, one per community id,
in the order the ids were encountered in the mapping. -/
theorem c1_custom_query_batches_and_answers (env : Env) (eng : Engine)
    (q : String) (B : Nat) (hB : 0 < B) :
    (chunksOf B ((communitySummariesOf env eng q).map Prod.fst)).length =
        ((communitySummariesOf env eng q).length + B - 1) / B
    ∧ (chunksOf B ((communitySummariesOf env eng q).map Prod.fst)).flatten =
        (communitySummariesOf env eng q).map Prod.fst
    ∧ (customQuery env eng q B).length = (communitySummariesOf env eng q).length
    ∧ (customQuery env eng q B).map RetrievalResponseData.text =
        (communitySummariesOf env eng q).map (answerFor env eng q) := by
  obtain ⟨b, rfl⟩ : ∃ b, B = b + 1 := ⟨B - 1, by omega⟩
  refine ⟨?_, chunksOf_flatten b _, ?_, ?_⟩
  · rw [length_chunksOf, List.length_map]
    congr 1
  · rw [customQuery_eq env eng q _ hB]
    simp
  · rw [customQuery_eq env eng q _ hB, List.map_map]
    simp

/-- Witness for C1 at a concrete environment: two entities, three communities,
batch size 2. -/
theorem c1_custom_query_batches_and_answers_witness :
    0 < 2 ∧
      ((chunksOf 2 ((communitySummariesOf envA engA "q").map Prod.fst)).length =
          ((communitySummariesOf envA engA "q").length + 2 - 1) / 2
      ∧ (chunksOf 2 ((communitySummariesOf envA engA "q").map Prod.fst)).flatten =
          (communitySummariesOf envA engA "q").map Prod.fst
      ∧ (customQuery envA engA "q" 2).length =
          (communitySummariesOf envA engA "q").length
      ∧ (customQuery envA engA "q" 2).map RetrievalResponseData.text =
          (communitySummariesOf envA engA "q").map (answerFor envA engA "q")) :=
  ⟨by decide, c1_custom_query_batches_and_answers envA engA "q" 2 (by decide)⟩

/-- Claim C2: the community ids for which `custom_query` generates an LLM
answer are exactly the key list of the mapping returned by
`retrieve_community_summaries_cypher` for the extracted entities — nothing is
filtered, added, ranked or re-deduplicated between fetch and answer. -/
theorem c2_processed_ids_are_fetcher_keys (env : Env) (eng : Engine)
    (q : String) (B : Nat) (hB : 0 < B) :
    promptedCommunityIds env eng q B =
      (retrieveCommunitySummariesCypher env
        (getEntities env eng q eng.similarity_top_k)).map Prod.fst :=
  promptedCommunityIds_eq env eng q B hB

/-- Witness for C2 at a concrete environment. -/
theorem c2_processed_ids_are_fetcher_keys_witness :
    0 < 2 ∧
      promptedCommunityIds envA engA "q" 2 =
        (retrieveCommunitySummariesCypher envA
          (getEntities envA engA "q" engA.similarity_top_k)).map Prod.fst :=
  ⟨by decide, c2_processed_ids_are_fetcher_keys envA engA "q" 2 (by decide)⟩

/-- Claim C3: when the single retrieved node text is exactly
`"Paris -> capitalOf -> France"`, `get_entities` returns a collection
containing `"Paris"` and `"France"` and not `"capitalOf"`. -/
theorem c3_entity_extractor_subject_object (env : Env) (eng : Engine)
    (q : String) (k : Nat)
    (h : env.retrieveF q eng.similarity_top_k = ["Paris -> capitalOf -> France"]) :
    "Paris" ∈ getEntities env eng q k ∧ "France" ∈ getEntities env eng q k ∧
      "capitalOf" ∉ getEntities env eng q k := by
  simp only [getEntities]
  rw [h]
  decide

/-- Witness for C3 at a concrete environment. -/
theorem c3_entity_extractor_subject_object_witness :
    envA.retrieveF "q" engA.similarity_top_k = ["Paris -> capitalOf -> France"] ∧
      ("Paris" ∈ getEntities envA engA "q" 5 ∧
        "France" ∈ getEntities envA engA "q" 5 ∧
        "capitalOf" ∉ getEntities envA engA "q" 5) :=
  ⟨rfl, c3_entity_extractor_subject_object envA engA "q" 5 rfl⟩

/-- Claim C4: when entity extraction yields no entities, or the
community-summary fetch yields an empty mapping, `custom_query` returns the
empty list of `(text, empty-metadata)` records and builds zero prompts (so no
LLM call is issued); no error path exists in this flow. -/
theorem c4_empty_input_empty_result (env : Env) (eng : Engine) (q : String)
    (B : Nat)
    (h : getEntities env eng q eng.similarity_top_k = [] ∨
      retrieveCommunitySummariesCypher env
        (getEntities env eng q eng.similarity_top_k) = []) :
    customQuery env eng q B = [] ∧ promptedCommunityIds env eng q B = [] := by
  have hS : retrieveCommunitySummariesCypher env
      (getEntities env eng q eng.similarity_top_k) = [] := by
    rcases h with h | h
    · rw [h]
      rfl
    · exact h
  constructor
  · simp only [customQuery]
    rw [hS]
    simp [chunksOf_nil]
  · simp only [promptedCommunityIds, communitySummariesOf]
    rw [hS]
    simp [chunksOf_nil]

/-- Witness for C4: a retrieval whose node text has no triplet pattern. -/
theorem c4_empty_input_empty_result_witness :
    (getEntities envEmpty engA "q" engA.similarity_top_k = [] ∨
      retrieveCommunitySummariesCypher envEmpty
        (getEntities envEmpty engA "q" engA.similarity_top_k) = []) ∧
      (customQuery envEmpty engA "q" 16 = [] ∧
        promptedCommunityIds envEmpty engA "q" 16 = []) :=
  ⟨Or.inl (by decide),
    c4_empty_input_empty_result envEmpty engA "q" 16 (Or.inl (by decide))⟩

/-- Claim C5: the community ids processed are a pure function of the query,
the retrieval function, the graph function and the configured top-k; in
particular two runs with the same query against unchanged external state
process the same ids (the LLM clients and the credential switch are not
consulted). -/
theorem c5_processed_ids_deterministic (env1 env2 : Env) (eng1 eng2 : Engine)
    (q : String)
    (h1 : env1.retrieveF = env2.retrieveF) (h2 : env1.dbF = env2.dbF)
    (h3 : eng1.similarity_top_k = eng2.similarity_top_k) :
    communityIdsProcessed env1 eng1 q = communityIdsProcessed env2 eng2 q := by
  simp only [communityIdsProcessed, communitySummariesOf,
    retrieveCommunitySummariesCypher, getEntities, h1, h2, h3]

/-- Witness for C5: two environments differing only in their LLM clients. -/
theorem c5_processed_ids_deterministic_witness :
    envA.retrieveF = envAOtherChat.retrieveF ∧ envA.dbF = envAOtherChat.dbF ∧
      engA.similarity_top_k = engB.similarity_top_k ∧
      communityIdsProcessed envA engA "q" =
        communityIdsProcessed envAOtherChat engB "q" :=
  ⟨rfl, rfl, rfl,
    c5_processed_ids_deterministic envA envAOtherChat engA engB "q" rfl rfl rfl⟩

/-- Claim C6: response post-processing removes a leading `assistant:` role tag
together with the whitespace after it, and strips surrounding whitespace: the
raw response `"assistant: Paris is the capital."` becomes exactly
`"Paris is the capital."`, every cleaned response has neither leading nor
trailing whitespace, and cleaning `assistant:<rest>` is exactly
`strip(<rest>)`. -/
theorem c6_clean_response_strips_role_tag (s : String) :
    cleanResponse "assistant: Paris is the capital." = "Paris is the capital."
    ∧ cleanResponse ⟨"assistant:".data ++ s.data⟩ = ⟨pyStrip s.data⟩
    ∧ ((cleanResponse s).data.head?.all fun c => !isPySpace c) = true
    ∧ ((cleanResponse s).data.getLast?.all fun c => !isPySpace c) = true := by
  refine ⟨by decide, cleanResponse_assistant_cat s, ?_, ?_⟩
  · exact head_all_pyStrip (subAssistantTag s.data)
  · exact getLast_all_pyStrip (subAssistantTag s.data)

/-- Claim C7: the client choice of `generate_batch_responses` is a single
global switch: with the credential configured every call of the batch goes
through the fresh `OpenAI()` client — independently of the engine's
configured `_llm` — and without it every call goes through the engine's
`_llm`. -/
theorem c7_batch_client_global_switch (env : Env) (eng eng2 : Engine)
    (messages : List (List ChatMessage)) :
    (env.openaiKeySet = true →
      batchResponsesRaw env eng messages = messages.map env.openaiChat ∧
        batchResponsesRaw env eng messages = batchResponsesRaw env eng2 messages)
    ∧ (env.openaiKeySet = false →
      batchResponsesRaw env eng messages = messages.map eng.llmChat) := by
  constructor <;> intro h <;> simp [batchResponsesRaw, h]

/-- Witness for C7: both switch positions at concrete clients. -/
theorem c7_batch_client_global_switch_witness :
    (envK.openaiKeySet = true ∧
      (batchResponsesRaw envK engA msgsW = msgsW.map envK.openaiChat ∧
        batchResponsesRaw envK engA msgsW = batchResponsesRaw envK engB msgsW))
    ∧ (envA.openaiKeySet = false ∧
      batchResponsesRaw envA engA msgsW = msgsW.map engA.llmChat) :=
  ⟨⟨rfl, (c7_batch_client_global_switch envK engA engB msgsW).1 rfl⟩,
    ⟨rfl, (c7_batch_client_global_switch envA engA engB msgsW).2 rfl⟩⟩

/-- Counterexample to claim C8 as stated: with the credential configured and
client construction failing (either `except` arm), initialization does not
fall through to the self-hosted path — it aborts with the unbound-local
error, so construction of graph store, index and query engine never
completes. -/
theorem c8_no_selfhosted_fallthrough_counterexample :
    (initGraphStoreAndIndex
        { openai_api_key := true, constructionError := some true, emsg := "" }).2 =
      InitOutcome.unboundLocalError
    ∧ (initGraphStoreAndIndex
        { openai_api_key := true, constructionError := some true, emsg := "" }).2 ≠
      InitOutcome.ready InitClients.selfHostedClients := by
  decide

/-- Claim C8 (amended): when the credential is configured and client
construction fails, initialization logs the validity-check line and then the
error (`invalid key` or generic), does not re-raise at the catch site, but
then fails with an unbound-local error instead of completing construction via
the self-hosted path — the self-hosted clients are only built when the
credential is absent. -/
theorem c8_init_logs_error_then_fails (isAuth : Bool) (emsg : String) :
    initGraphStoreAndIndex
        { openai_api_key := true, constructionError := some isAuth, emsg := emsg } =
      (["OpenAI API Key is set. Verifying its validity...",
        if isAuth then "OpenAI API Key is invalid."
        else "An error occurred while verifying the API Key: " ++ emsg],
       InitOutcome.unboundLocalError) := by
  cases isAuth <;> simp [initGraphStoreAndIndex]

/-- Claim C9: for a request whose `messages` field is a (nonempty) list of
role/content messages, the handler queries with the first message's content
and returns a response whose `messages` field is the fixed confirmation
string, whose `retrieved_docs` are the engine's records for that query, and
whose `documents` are exactly, element by element, the `text` fields of those
records. -/
theorem c9_handler_shape (env : Env) (eng : Engine) (m : ChatMessage)
    (rest : List ChatMessage) :
    ∃ r, retrieveHandler env eng (.list (m :: rest)) = some r
      ∧ r.messages = "Retrieval of answers from community summaries successful"
      ∧ r.retrieved_docs = customQuery env eng m.content 16
      ∧ r.documents = r.retrieved_docs.map RetrievalResponseData.text :=
  ⟨handlerResult env eng m.content, rfl, rfl, rfl, rfl⟩

/-- Claim C10: `get_entities` ignores its `similarity_top_k` parameter — the
retrieval breadth always comes from the engine's configured `_similarity_top_k`
field, so the result is independent of the argument. -/
theorem c10_get_entities_ignores_param (env : Env) (eng : Engine) (q : String)
    (k1 k2 : Nat) :
    getEntities env eng q k1 = getEntities env eng q k2 := rfl

end RetrieverNeo4j
